import Mathlib

/-!
Shallow embedding of `amqp-dead-letter` (`dead_letter.go`), an interactive
tool that triages messages from a RabbitMQ dead-letter queue.

External collaborators (the AMQP transport, the `survey` prompt, the file
system, `encoding/json`, `time`) are modelled as explicit inputs:
fallible calls take their outcome from an environment record, side effects
are recorded in a trace, and library values (timestamps, parsed JSON) are
abstracted to the operations the code uses.  Everything else is translated
directly from the Go source.
-/

namespace DeadLetter

/-! ### Lexicographic string order

Go compares strings byte-wise; on valid UTF-8 this agrees with
code-point-wise lexicographic comparison, which we define structurally so
that it evaluates inside the kernel. -/

/-- Lexicographic `≤` on lists of characters, by code point. -/
def charListLe : List Char → List Char → Bool
  | [], _ => true
  | _ :: _, [] => false
  | a :: as, b :: bs =>
    if a.toNat < b.toNat then true
    else if b.toNat < a.toNat then false
    else charListLe as bs

/-- Lexicographic `≤` on strings, by code point (byte order in Go). -/
def strLe (a b : String) : Bool := charListLe a.data b.data

theorem charListLe_total (a b : List Char) :
    charListLe a b = true ∨ charListLe b a = true := by
  induction a generalizing b with
  | nil => left; rfl
  | cons x xs ih =>
    cases b with
    | nil => right; rfl
    | cons y ys =>
      by_cases h1 : x.toNat < y.toNat
      · left; simp [charListLe, h1]
      · by_cases h2 : y.toNat < x.toNat
        · right; simp [charListLe, h2]
        · have := ih ys
          rcases this with h | h
          · left; simpa [charListLe, h1, h2] using h
          · right; simpa [charListLe, h1, h2] using h

theorem charListLe_trans (a b c : List Char) (hab : charListLe a b = true)
    (hbc : charListLe b c = true) : charListLe a c = true := by
  induction a generalizing b c with
  | nil => rfl
  | cons x xs ih =>
    cases b with
    | nil => simp [charListLe] at hab
    | cons y ys =>
      cases c with
      | nil => simp [charListLe] at hbc
      | cons z zs =>
        simp only [charListLe] at hab hbc ⊢
        by_cases hxy : x.toNat < y.toNat
        · by_cases hyz : y.toNat < z.toNat
          · have hxz : x.toNat < z.toNat := by omega
            simp [hxz]
          · simp only [hyz, if_false] at hbc
            by_cases hzy : z.toNat < y.toNat
            · simp [hzy] at hbc
            · have hxz : x.toNat < z.toNat := by omega
              simp [hxz]
        · simp only [hxy, if_false] at hab
          by_cases hyx : y.toNat < x.toNat
          · simp [hyx] at hab
          · simp only [hyx, if_false] at hab
            by_cases hyz : y.toNat < z.toNat
            · have hxz : x.toNat < z.toNat := by omega
              simp [hxz]
            · simp only [hyz, if_false] at hbc
              by_cases hzy : z.toNat < y.toNat
              · simp [hzy] at hbc
              · simp only [hzy, if_false] at hbc
                have hxz : ¬ x.toNat < z.toNat := by omega
                have hzx : ¬ z.toNat < x.toNat := by omega
                simp only [hxz, hzx, if_false]
                exact ih ys zs hab hbc

theorem strLe_total (a b : String) : strLe a b = true ∨ strLe b a = true :=
  charListLe_total a.data b.data

theorem strLe_trans (a b c : String) (hab : strLe a b = true)
    (hbc : strLe b c = true) : strLe a c = true :=
  charListLe_trans a.data b.data c.data hab hbc

/-! ### Sorting

Go's `sort.Slice` sorts in place with a `less` comparison; we model it with
an insertion sort on the corresponding `≤`, which produces a sorted
permutation of its input — for the distinct sort keys used by this program
the result is uniquely determined. -/

/-- Insert an element into a list so that a sorted list stays sorted. -/
def insertLe {α : Type} (le : α → α → Bool) (x : α) : List α → List α
  | [] => [x]
  | y :: ys => if le x y then x :: y :: ys else y :: insertLe le x ys

/-- Insertion sort with a boolean comparison. -/
def sortListBy {α : Type} (le : α → α → Bool) : List α → List α
  | [] => []
  | x :: xs => insertLe le x (sortListBy le xs)

theorem insertLe_perm {α : Type} (le : α → α → Bool) (x : α) (l : List α) :
    (insertLe le x l).Perm (x :: l) := by
  induction l with
  | nil => exact List.Perm.refl _
  | cons y ys ih =>
    by_cases h : le x y = true
    · simp [insertLe, h]
    · simp only [insertLe, h, if_false, Bool.false_eq_true]
      exact (ih.cons y).trans (List.Perm.swap x y ys)

theorem sortListBy_perm {α : Type} (le : α → α → Bool) (l : List α) :
    (sortListBy le l).Perm l := by
  induction l with
  | nil => exact List.Perm.refl _
  | cons x xs ih =>
    exact (insertLe_perm le x (sortListBy le xs)).trans (ih.cons x)

theorem insertLe_pairwise {α : Type} (le : α → α → Bool)
    (htot : ∀ a b, le a b = true ∨ le b a = true)
    (htrans : ∀ a b c, le a b = true → le b c = true → le a c = true)
    (x : α) (l : List α) (h : l.Pairwise (fun a b => le a b = true)) :
    (insertLe le x l).Pairwise (fun a b => le a b = true) := by
  induction l with
  | nil => simp [insertLe]
  | cons y ys ih =>
    rcases List.pairwise_cons.mp h with ⟨hy, hys⟩
    by_cases hxy : le x y = true
    · simp only [insertLe, hxy, if_true]
      refine List.pairwise_cons.mpr ⟨?_, h⟩
      intro z hz
      rcases List.mem_cons.mp hz with rfl | hz
      · exact hxy
      · exact htrans x y z hxy (hy z hz)
    · simp only [insertLe, hxy, if_false, Bool.false_eq_true]
      refine List.pairwise_cons.mpr ⟨?_, ih hys⟩
      intro z hz
      have hz' : z ∈ x :: ys := (insertLe_perm le x ys).mem_iff.mp hz
      rcases List.mem_cons.mp hz' with h' | hz'
      · rw [h']
        rcases htot x y with h'' | h''
        · exact absurd h'' hxy
        · exact h''
      · exact hy z hz'

theorem sortListBy_pairwise {α : Type} (le : α → α → Bool)
    (htot : ∀ a b, le a b = true ∨ le b a = true)
    (htrans : ∀ a b c, le a b = true → le b c = true → le a c = true)
    (l : List α) :
    (sortListBy le l).Pairwise (fun a b => le a b = true) := by
  induction l with
  | nil => simp [sortListBy]
  | cons x xs ih => exact insertLe_pairwise le htot htrans x (sortListBy le xs) ih

/-! ### Data model

`amqp.Table` maps string keys to dynamically typed values; we model it as an
association list (Go map iteration order is arbitrary, but every use in this
program either searches by key or sorts, so a list with unique keys is a
faithful model).  `time.Time` is abstracted to the three operations the code
applies to it: `IsZero`, `Unix` and `Format(RFC3339)`. -/

/-- Dynamically typed AMQP header/table value (`interface{}` in Go). -/
inductive FieldValue where
  | str (s : String)
  | int (n : Int)
  | boolean (b : Bool)
  | bytes (s : String)
  | nested (kvs : List (String × String))
  deriving Repr, DecidableEq

/-- Model of `amqp.Table` (Go map, keys unique). -/
abbrev Table := List (String × FieldValue)

/-- Model of `time.Time` by the operations the code uses. -/
structure GoTime where
  isZero : Bool
  unix : Int
  rfc3339 : String
  deriving Repr, DecidableEq

/-- Model of `amqp.Delivery`: the fields this program reads. -/
structure Delivery where
  deliveryTag : Nat
  messageCount : Nat
  headers : Table
  contentType : String
  contentEncoding : String
  deliveryMode : Nat
  priority : Nat
  correlationId : String
  replyTo : String
  expiration : String
  messageId : String
  timestamp : GoTime
  type : String
  userId : String
  appId : String
  routingKey : String
  body : String
  deriving Repr, DecidableEq

/-- Model of `amqp.Publishing`: the fields this program sets. -/
structure Publishing where
  headers : Table
  contentType : String
  contentEncoding : String
  deliveryMode : Nat
  priority : Nat
  correlationId : String
  replyTo : String
  expiration : String
  messageId : String
  timestamp : GoTime
  type : String
  userId : String
  appId : String
  body : String
  deriving Repr, DecidableEq

/-- Translation of `getHeader`: scan the table for `key`; on the first hit
return the value if it is a string and `""` otherwise; `""` when absent. -/
def getHeader (table : Table) (key : String) : String :=
  match table with
  | [] => ""
  | (k, v) :: rest =>
    if k = key then
      match v with
      | .str s => s
      | _ => ""
    else getHeader rest key

/-- Translation of `publishing`: the outgoing message built from a delivery. -/
def publishing (del : Delivery) : Publishing :=
  { headers := del.headers
    contentType := del.contentType
    contentEncoding := del.contentEncoding
    deliveryMode := del.deliveryMode
    priority := del.priority
    correlationId := del.correlationId
    replyTo := del.replyTo
    expiration := del.expiration
    messageId := del.messageId
    timestamp := del.timestamp
    type := del.type
    userId := del.userId
    appId := del.appId
    body := del.body }

/-- Translation of `filename`. -/
def filename (del : Delivery) : String :=
  "dead-letter-" ++ del.messageId ++ ".txt"

/-- Translation of `timestamp`: empty for the zero time, else
`"<unix-seconds> (<RFC3339>)"`. -/
def timestamp (del : Delivery) : String :=
  if del.timestamp.isZero then ""
  else toString del.timestamp.unix ++ " (" ++ del.timestamp.rfc3339 ++ ")"

/-! ### Metadata extraction (`printProperties`, `printHeaders`)

The claims are about the rows handed to `tableprinter.Print`, so the model
produces those row lists; the textual table layout is library code. -/

/-- Row of the PROPERTIES table (`property` struct in the source). -/
structure PropertyRow where
  name : String
  value : String
  deriving Repr, DecidableEq

/-- The fixed property list built by `printProperties`, in source order,
before filtering and sorting. -/
def propertyList (del : Delivery) : List PropertyRow :=
  [ { name := "message_id", value := del.messageId }
  , { name := "type", value := del.type }
  , { name := "routing_key", value := del.routingKey }
  , { name := "timestamp", value := timestamp del }
  , { name := "content_type", value := del.contentType }
  , { name := "content_encoding", value := del.contentEncoding }
  , { name := "correlation_id", value := del.correlationId }
  , { name := "reply_to", value := del.replyTo }
  , { name := "expiration", value := del.expiration }
  , { name := "user_id", value := del.userId }
  , { name := "app_id", value := del.appId } ]

/-- Translation of `printProperties`: keep the rows with non-empty values,
sorted by property name (`sort.Slice` on `Name <`; names are distinct, so
any sorted permutation is the unique result). -/
def propertiesRows (del : Delivery) : List PropertyRow :=
  sortListBy (fun a b => strLe a.name b.name)
    ((propertyList del).filter (fun p => p.value ≠ ""))

/-- Row of the HEADERS table (`header` struct in the source). -/
structure HeaderRow where
  key : String
  value : FieldValue
  deriving Repr, DecidableEq

/-- Translation of `printHeaders`: one row per header entry, sorted by key. -/
def headersRows (del : Delivery) : List HeaderRow :=
  sortListBy (fun a b => strLe a.key b.key)
    (del.headers.map (fun kv => { key := kv.1, value := kv.2 }))

/-! ### Payload rendering (`printPayload`)

`encoding/json` is external: the parse (`json.Unmarshal`) and the 2-space
indented re-serialization (`Encoder` with `SetIndent("", "  ")`, whose
`Encode` also appends the encoder's trailing newline) are taken as
parameters, so the theorems hold for any JSON library behaviour.  The
writer is modelled as infallible (output is returned as a string), which
is why the function is total: in the source the only error paths of
`printPayload` are writer/encoder failures. -/

/-- Translation of `printPayload`: the text written for the payload section.
`parse` models `json.Unmarshal`, `encode` models the indented `Encode` call
(including its trailing newline). -/
def printPayload {J : Type} (parse : String → Option J) (encode : J → String)
    (del : Delivery) : String :=
  "PAYLOAD\n" ++
    (if del.contentType = "application/json" then
      match parse del.body with
      | some v => encode v
      | none => ""
    else del.body ++ "\n")

/-! ### Disposition resolution (`process`, option/action construction) -/

/-- Action code `actionRepublishQueue` (iota 0). -/
def actionRepublishQueue : Nat := 0

/-- Action code `actionRepublishExchange` (iota 1). -/
def actionRepublishExchange : Nat := 1

/-- Action code `actionSaveToFile` (iota 2). -/
def actionSaveToFile : Nat := 2

/-- Action code `actionDiscard` (iota 3). -/
def actionDiscard : Nat := 3

/-- Translation of the option/action list construction in `process`
(lines 89-111): parallel label and action-code lists built by conditional
appends, always ending with discard. -/
def resolveDispositions (del : Delivery) : List String × List Nat :=
  let exchange := getHeader del.headers "x-first-death-exchange"
  let queue := getHeader del.headers "x-first-death-queue"
  let options : List String := []
  let actions : List Nat := []
  let options := if queue ≠ "" then options ++ ["republish to queue " ++ queue] else options
  let actions := if queue ≠ "" then actions ++ [actionRepublishQueue] else actions
  let options := if exchange ≠ "" then options ++ ["republish to exchange " ++ exchange] else options
  let actions := if exchange ≠ "" then actions ++ [actionRepublishExchange] else actions
  let options := if del.messageId ≠ "" then options ++ ["save to file " ++ filename del] else options
  let actions := if del.messageId ≠ "" then actions ++ [actionSaveToFile] else actions
  (options ++ ["discard"], actions ++ [actionDiscard])

/-! ### Side-effect model for the action switch in `process`

Every interaction with the broker, the terminal and the file system is
recorded as an `Effect`; whether each fallible call succeeds is read from
an `Env` (an attempted call is recorded even when it fails, and the
function returns that call's error immediately, as the source does).
Writing the rendering of a delivery to a file (`printDelivery(f, del)`) is
one fallible step whose content is determined by the delivery, recorded as
`fileWriteDelivery`.  `fileRemove` is in the effect vocabulary (Go's
`os.Remove` is available to the program) precisely so that theorems can
state that the code never removes a file. -/

/-- Side effects the triage procedure can perform. -/
inductive Effect where
  | publish (exchange routingKey : String) (mandatory immediate : Bool) (msg : Publishing)
  | ack (tag : Nat) (multiple : Bool)
  | fileCreate (name : String)
  | fileWriteDelivery (name : String) (del : Delivery)
  | fileClose (name : String)
  | fileRemove (name : String)
  | printLine (s : String)
  | displayDelivery (del : Delivery)
  | promptSelect (message : String) (options : List String)
  deriving Repr, DecidableEq

/-- Outcomes of the fallible external calls (`none` = success). -/
structure Env where
  publishErr : Option String
  createErr : Option String
  writeErr : Option String
  closeErr : Option String
  ackErr : Option String
  deriving Repr, DecidableEq

/-- Translation of the `switch actions[answer]` block of `process`
(lines 122-157): the effect trace of one disposition and the returned
error, given the chosen action code. -/
def executeAction (env : Env) (del : Delivery) (action : Nat) :
    List Effect × Option String :=
  let exchange := getHeader del.headers "x-first-death-exchange"
  let queue := getHeader del.headers "x-first-death-queue"
  if action = actionRepublishQueue then
    match env.publishErr with
    | some e => ([.publish "" queue false false (publishing del)], some e)
    | none =>
      ([.publish "" queue false false (publishing del),
        .printLine ("republished directly to queue " ++ queue),
        .ack del.deliveryTag false], env.ackErr)
  else if action = actionRepublishExchange then
    match env.publishErr with
    | some e => ([.publish exchange del.routingKey false false (publishing del)], some e)
    | none =>
      ([.publish exchange del.routingKey false false (publishing del),
        .printLine ("republished to exchange " ++ exchange),
        .ack del.deliveryTag false], env.ackErr)
  else if action = actionSaveToFile then
    if del.messageId = "" then
      ([], some "cannot save to file without message_id")
    else
      match env.createErr with
      | some e => ([.fileCreate (filename del)], some e)
      | none =>
        match env.writeErr with
        | some e =>
          ([.fileCreate (filename del), .fileWriteDelivery (filename del) del], some e)
        | none =>
          match env.closeErr with
          | some e =>
            ([.fileCreate (filename del), .fileWriteDelivery (filename del) del,
              .fileClose (filename del)], some e)
          | none =>
            ([.fileCreate (filename del), .fileWriteDelivery (filename del) del,
              .fileClose (filename del), .ack del.deliveryTag false], env.ackErr)
  else if action = actionDiscard then
    ([.ack del.deliveryTag false], env.ackErr)
  else ([], none)

/-- Translation of `process`: display the message, resolve the dispositions,
prompt (`survey.AskOne`, whose outcome — an error or the selected index — is
an input), and run the selected action.  Indexing `actions[answer]` out of
range is a Go panic, modelled as an error result. -/
def process (env : Env) (promptResult : Except String Nat) (del : Delivery) :
    List Effect × Option String :=
  let display : List Effect :=
    [.printLine ("MESSAGE " ++ toString del.deliveryTag ++ " (" ++
        toString del.messageCount ++ " remaining)"),
      .displayDelivery del]
  let (options, actions) := resolveDispositions del
  let promptEff := Effect.promptSelect "choose an action" options
  match promptResult with
  | .error e => (display ++ [promptEff], some e)
  | .ok answer =>
    match actions[answer]? with
    | none => (display ++ [promptEff], some "panic: index out of range")
    | some act =>
      let (effs, res) := executeAction env del act
      (display ++ [promptEff] ++ effs, res)

/-! ### The triage loop (`work`)

Each loop iteration first polls the cancellation signal (the `select` with
a `default` branch), then performs a `Get`.  The environment is a script:
one `Step` per iteration, telling whether cancellation had been observed
and, if not, how the fetch turned out.  The loop's observable behaviour is
a list of `LoopEvent`s plus a result; `none` means the script ended before
the loop did, `some none` a successful return, `some (some e)` the error. -/

/-- Outcome of one `ch.Get` call. -/
inductive FetchOutcome where
  | fetchFailure (e : String)
  | empty
  | msg (env : Env) (promptResult : Except String Nat) (del : Delivery)

/-- One loop iteration of the script: either cancellation has been
observed, or the fetch has this outcome. -/
inductive Step where
  | cancelled
  | ready (f : FetchOutcome)

/-- Observable loop events. -/
inductive LoopEvent where
  | fetch
  | processed (del : Delivery)
  | notice
  deriving Repr, DecidableEq

/-- Translation of `work`: poll cancellation, fetch one message without
auto-ack, stop on empty queue / fetch error / processing error, continue
on processing success. -/
def work : List Step → List LoopEvent × Option (Option String)
  | [] => ([], none)
  | .cancelled :: _ => ([], some none)
  | .ready (.fetchFailure e) :: _ => ([.fetch], some (some e))
  | .ready .empty :: _ => ([.fetch, .notice], some none)
  | .ready (.msg env pr del) :: rest =>
    match (process env pr del).2 with
    | some e => ([.fetch, .processed del], some (some e))
    | none =>
      let (tr, res) := work rest
      (.fetch :: .processed del :: tr, res)

/-- Scan a trace: `inFlight` records that a fetch has happened whose
message has not yet been dispositioned; a second fetch in that state is
the violation. -/
def flightCheck : Bool → List LoopEvent → Bool
  | _, [] => true
  | inFlight, .fetch :: rest => if inFlight then false else flightCheck true rest
  | _, .processed _ :: rest => flightCheck false rest
  | b, .notice :: rest => flightCheck b rest

/-- A trace never fetches a second message while one is in flight. -/
def atMostOneInFlight (tr : List LoopEvent) : Bool := flightCheck false tr

/-! ### Process entry (`run` and `main`) -/

/-- Top-level effects of `run` before/around the loop. -/
inductive RunEffect where
  | dial (url : String)
  | openChannel
  | runLoop
  deriving Repr, DecidableEq

/-- Outcomes of the connection calls of `run`, plus the loop's script. -/
structure RunEnv where
  dialErr : Option String
  channelErr : Option String
  script : List Step

/-- Translation of `errUsage`. -/
def errUsage : String := "usage: amqp-dead-letter <url> <queue>"

/-- Translation of `run`, over the full `os.Args` (program name first):
argument validation, dial, channel, then the loop.  The result mirrors
`work`'s: `some (some e)` an error, `some none` a nil return, `none` if
the loop script ran out. -/
def run (env : RunEnv) (args : List String) :
    List RunEffect × Option (Option String) :=
  if args.length ≠ 3 then ([], some (some errUsage))
  else
    let url := args.getD 1 ""
    let queue := args.getD 2 ""
    if url = "" then ([], some (some errUsage))
    else if queue = "" then ([], some (some errUsage))
    else
      match env.dialErr with
      | some e => ([.dial url], some (some e))
      | none =>
        match env.channelErr with
        | some e => ([.dial url, .openChannel], some (some e))
        | none => ([.dial url, .openChannel, .runLoop], (work env.script).2)

/-- Translation of `main`: on a non-nil error from `run`, print it and exit
with status 1; otherwise fall off `main`, exiting with status 0.  The
result is the exit status paired with the error line printed, `none` while
`run` has not returned. -/
def mainResult (env : RunEnv) (args : List String) :
    Option (Nat × Option String) :=
  match (run env args).2 with
  | none => none
  | some none => some (0, none)
  | some (some e) => some (1, some e)

/-- Number of acknowledgements in an effect trace. -/
def countAcks (effs : List Effect) : Nat :=
  effs.countP (fun e => match e with | .ack _ _ => true | _ => false)

/-- All external calls of the action switch succeed. -/
def allOk (env : Env) : Prop :=
  env.publishErr = none ∧ env.createErr = none ∧ env.writeErr = none ∧
    env.closeErr = none ∧ env.ackErr = none

/-! ### Concrete sample inputs, used by the witness theorems -/

/-- Sample delivery: dead-lettered JSON message with a first-death queue
header and a message id (spec scenario B). -/
def delA : Delivery :=
  { deliveryTag := 7
    messageCount := 2
    headers := [("x-first-death-queue", .str "orders.retry"), ("x-foo", .str "bar")]
    contentType := "application/json"
    contentEncoding := ""
    deliveryMode := 2
    priority := 0
    correlationId := ""
    replyTo := ""
    expiration := ""
    messageId := "m1"
    timestamp := { isZero := true, unix := 0, rfc3339 := "" }
    type := ""
    userId := ""
    appId := ""
    routingKey := "rk"
    body := "not-json" }

/-- Sample delivery: plain-text message with a timestamp and a first-death
exchange header. -/
def delT : Delivery :=
  { delA with
    contentType := "text/plain"
    headers := [("x-first-death-exchange", .str "events")]
    timestamp := { isZero := false, unix := 1700000000, rfc3339 := "2023-11-14T22:13:20Z" }
    body := "hello" }

/-- Sample delivery whose first-death-queue header holds a non-string. -/
def delN : Delivery :=
  { delA with headers := [("x-first-death-queue", .int 5), ("x-foo", .str "bar")] }

/-- Environment where every external call succeeds. -/
def envOk : Env :=
  { publishErr := none, createErr := none, writeErr := none, closeErr := none, ackErr := none }

/-- Environment where only the acknowledgement fails. -/
def envAckFail : Env := { envOk with ackErr := some "ack failed" }

/-- Environment where only the file write fails. -/
def envWriteFail : Env := { envOk with writeErr := some "disk full" }

/-- Environment where only the file close fails. -/
def envCloseFail : Env := { envOk with closeErr := some "close failed" }

/-! ### Claim theorems -/

/-- C2: the republished message carries over headers, content type, content
encoding, delivery mode, priority, correlation id, reply-to, expiration,
message id, timestamp, type, user id, app id and body verbatim; the
exchange disposition publishes to the `x-first-death-exchange` exchange
with the delivery's original routing key, and the queue disposition
publishes via the default (empty-named) exchange with `x-first-death-queue`
as the routing key. -/
theorem republish_copy_spec (env : Env) (del : Delivery) :
    (publishing del).headers = del.headers ∧
    (publishing del).contentType = del.contentType ∧
    (publishing del).contentEncoding = del.contentEncoding ∧
    (publishing del).deliveryMode = del.deliveryMode ∧
    (publishing del).priority = del.priority ∧
    (publishing del).correlationId = del.correlationId ∧
    (publishing del).replyTo = del.replyTo ∧
    (publishing del).expiration = del.expiration ∧
    (publishing del).messageId = del.messageId ∧
    (publishing del).timestamp = del.timestamp ∧
    (publishing del).type = del.type ∧
    (publishing del).userId = del.userId ∧
    (publishing del).appId = del.appId ∧
    (publishing del).body = del.body ∧
    (executeAction env del actionRepublishExchange).1.head? =
      some (.publish (getHeader del.headers "x-first-death-exchange") del.routingKey
        false false (publishing del)) ∧
    (executeAction env del actionRepublishQueue).1.head? =
      some (.publish "" (getHeader del.headers "x-first-death-queue")
        false false (publishing del)) := by
  refine ⟨rfl, rfl, rfl, rfl, rfl, rfl, rfl, rfl, rfl, rfl, rfl, rfl, rfl, rfl, ?_, ?_⟩ <;>
    cases h : env.publishErr <;>
    simp [executeAction, actionRepublishQueue, actionRepublishExchange, h]

/-- C3: payload rendering — for content type `application/json`, a body that
parses renders as its re-serialization (2-space-indented encode), a body
that fails to parse produces no payload output beyond the section header
and no error (the function is total and returns the output); any other
content type emits the raw body as text followed by a line break. -/
theorem payload_rendering_spec {J : Type} (parse : String → Option J)
    (encode : J → String) (del : Delivery) :
    (∀ v, del.contentType = "application/json" → parse del.body = some v →
      printPayload parse encode del = "PAYLOAD\n" ++ encode v) ∧
    (del.contentType = "application/json" → parse del.body = none →
      printPayload parse encode del = "PAYLOAD\n") ∧
    (del.contentType ≠ "application/json" →
      printPayload parse encode del = "PAYLOAD\n" ++ del.body ++ "\n") := by
  refine ⟨?_, ?_, ?_⟩
  · intro v hct hp
    simp [printPayload, hct, hp]
  · intro hct hp
    simp [printPayload, hct, hp]
  · intro hct
    simp [printPayload, hct, String.append_assoc]

/-- Witness for C3 at concrete inputs: a JSON-typed body whose parse
succeeds, one whose parse fails, and a text-typed body. -/
theorem payload_rendering_spec_witness :
    @printPayload Unit (fun _ => some ()) (fun _ => "ENCODED") delA =
      "PAYLOAD\n" ++ "ENCODED" ∧
    @printPayload Unit (fun _ => none) (fun _ => "ENCODED") delA = "PAYLOAD\n" ∧
    @printPayload Unit (fun _ => none) (fun _ => "ENCODED") delT =
      "PAYLOAD\n" ++ delT.body ++ "\n" :=
  ⟨(payload_rendering_spec (fun _ => some ()) (fun _ => "ENCODED") delA).1 () rfl rfl,
   (payload_rendering_spec (fun _ => none) (fun _ => "ENCODED") delA).2.1 rfl rfl,
   (payload_rendering_spec (fun _ => none) (fun _ => "ENCODED") delT).2.2 (by decide)⟩

/-- C6: the PROPERTIES rows are exactly the members of the fixed property
set whose rendered value is non-empty (a permutation of that filtered set),
sorted lexicographically by property name; the timestamp renders as the
empty string for the zero time and as `"<unix> (<RFC3339>)"` otherwise. -/
theorem properties_spec (del : Delivery) :
    (propertiesRows del).Perm ((propertyList del).filter (fun p => p.value ≠ "")) ∧
    (propertiesRows del).Pairwise (fun a b => strLe a.name b.name = true) ∧
    (del.timestamp.isZero = true → timestamp del = "") ∧
    (del.timestamp.isZero = false →
      timestamp del =
        toString del.timestamp.unix ++ " (" ++ del.timestamp.rfc3339 ++ ")") := by
  refine ⟨sortListBy_perm _ _, ?_, ?_, ?_⟩
  · exact sortListBy_pairwise (fun a b : PropertyRow => strLe a.name b.name)
      (fun a b => strLe_total a.name b.name)
      (fun a b c => strLe_trans a.name b.name c.name) _
  · intro h
    simp [timestamp, h]
  · intro h
    simp [timestamp, h]

/-- Witness for C6 at concrete inputs: the zero and non-zero timestamp
cases of `properties_spec`. -/
theorem properties_spec_witness :
    timestamp delA = "" ∧
    timestamp delT = toString delT.timestamp.unix ++ " (" ++ delT.timestamp.rfc3339 ++ ")" :=
  ⟨(properties_spec delA).2.2.1 rfl, (properties_spec delT).2.2.2 rfl⟩

/-- C7: the HEADERS rows are exactly the envelope's header entries — one
row per entry, none added and none dropped, for any value types — sorted
lexicographically by key. -/
theorem headers_spec (del : Delivery) :
    (headersRows del).Perm (del.headers.map (fun kv => { key := kv.1, value := kv.2 })) ∧
    (headersRows del).Pairwise (fun a b => strLe a.key b.key = true) := by
  refine ⟨sortListBy_perm _ _, ?_⟩
  exact sortListBy_pairwise (fun a b : HeaderRow => strLe a.key b.key)
    (fun a b => strLe_total a.key b.key)
    (fun a b c => strLe_trans a.key b.key c.key) _

/-- C1: the disposition list contains `RepublishToQueue` iff the
`x-first-death-queue` header is non-empty, then `RepublishToExchange` iff
`x-first-death-exchange` is non-empty, then `SaveToFile` iff the message id
is non-empty, always ending with `Discard`; labels and action codes are
index-aligned (every positionally zipped pair carries the label belonging
to its code) of equal length, in the fixed order, with no duplicate. -/
theorem dispositions_spec (del : Delivery) :
    (actionRepublishQueue ∈ (resolveDispositions del).2 ↔
      getHeader del.headers "x-first-death-queue" ≠ "") ∧
    (actionRepublishExchange ∈ (resolveDispositions del).2 ↔
      getHeader del.headers "x-first-death-exchange" ≠ "") ∧
    (actionSaveToFile ∈ (resolveDispositions del).2 ↔ del.messageId ≠ "") ∧
    (resolveDispositions del).2.getLast? = some actionDiscard ∧
    (resolveDispositions del).1.length = (resolveDispositions del).2.length ∧
    (resolveDispositions del).2.Nodup ∧
    (resolveDispositions del).2.Sublist
      [actionRepublishQueue, actionRepublishExchange, actionSaveToFile, actionDiscard] ∧
    (∀ p ∈ (resolveDispositions del).1.zip (resolveDispositions del).2,
      (p.2 = actionRepublishQueue →
        p.1 = "republish to queue " ++ getHeader del.headers "x-first-death-queue") ∧
      (p.2 = actionRepublishExchange →
        p.1 = "republish to exchange " ++ getHeader del.headers "x-first-death-exchange") ∧
      (p.2 = actionSaveToFile → p.1 = "save to file " ++ filename del) ∧
      (p.2 = actionDiscard → p.1 = "discard")) := by
  by_cases hq : getHeader del.headers "x-first-death-queue" = "" <;>
  by_cases he : getHeader del.headers "x-first-death-exchange" = "" <;>
  by_cases hm : del.messageId = "" <;>
    simp [resolveDispositions, hq, he, hm, actionRepublishQueue,
      actionRepublishExchange, actionSaveToFile, actionDiscard]

/-- Witness for C1 at a concrete delivery (spec scenario B). -/
theorem dispositions_spec_witness :
    (resolveDispositions delA).2.getLast? = some actionDiscard ∧
    ("republish to queue orders.retry" =
      "republish to queue " ++ getHeader delA.headers "x-first-death-queue") :=
  ⟨(dispositions_spec delA).2.2.2.1,
   ((dispositions_spec delA).2.2.2.2.2.2.2
      ("republish to queue orders.retry", actionRepublishQueue) (by decide)).1 rfl⟩

/-- C4: with every external call succeeding, each of the four dispositions
returns success, acknowledges the original delivery tag exactly once with
single-message scope (`multiple = false`), `Discard`'s whole trace is that
single immediate acknowledgement (no publish, no file effect), and no
disposition ever acknowledges more than once under any environment. -/
theorem ack_once_spec (env : Env) (del : Delivery) (act : Nat)
    (hok : allOk env)
    (hact : act = actionRepublishQueue ∨ act = actionRepublishExchange ∨
      act = actionSaveToFile ∨ act = actionDiscard)
    (hmid : act = actionSaveToFile → del.messageId ≠ "") :
    (executeAction env del act).2 = none ∧
    countAcks (executeAction env del act).1 = 1 ∧
    (∀ t m, Effect.ack t m ∈ (executeAction env del act).1 →
      t = del.deliveryTag ∧ m = false) ∧
    (executeAction env del actionDiscard).1 = [.ack del.deliveryTag false] ∧
    (∀ env' act', countAcks (executeAction env' del act').1 ≤ 1) := by
  obtain ⟨h1, h2, h3, h4, h5⟩ := hok
  have hgen : ∀ (env' : Env) (act' : Nat),
      countAcks (executeAction env' del act').1 ≤ 1 := by
    intro env' act'
    unfold executeAction
    split_ifs with ha hb hc hd hm
    · cases env'.publishErr <;> simp [countAcks]
    · cases env'.publishErr <;> simp [countAcks]
    · simp [countAcks]
    · cases env'.createErr <;> cases env'.writeErr <;> cases env'.closeErr <;>
        simp [countAcks]
    · simp [countAcks]
    · simp [countAcks]
  rcases hact with rfl | rfl | rfl | rfl
  · refine ⟨?_, ?_, ?_, ?_, hgen⟩ <;>
      simp [executeAction, actionRepublishQueue, actionRepublishExchange,
        actionSaveToFile, actionDiscard, h1, h5, countAcks]
  · refine ⟨?_, ?_, ?_, ?_, hgen⟩ <;>
      simp [executeAction, actionRepublishQueue, actionRepublishExchange,
        actionSaveToFile, actionDiscard, h1, h5, countAcks]
  · have hm := hmid rfl
    refine ⟨?_, ?_, ?_, ?_, hgen⟩ <;>
      simp [executeAction, actionRepublishQueue, actionRepublishExchange,
        actionSaveToFile, actionDiscard, h2, h3, h4, h5, hm, countAcks]
  · refine ⟨?_, ?_, ?_, ?_, hgen⟩ <;>
      simp [executeAction, actionRepublishQueue, actionRepublishExchange,
        actionSaveToFile, actionDiscard, h5, countAcks]

/-- Witness for C4 at a concrete delivery and all-succeeding environment,
for the `Discard` disposition. -/
theorem ack_once_spec_witness :
    (executeAction envOk delA actionDiscard).2 = none ∧
    countAcks (executeAction envOk delA actionDiscard).1 = 1 ∧
    (executeAction envOk delA actionDiscard).1 = [.ack delA.deliveryTag false] :=
  have h := ack_once_spec envOk delA actionDiscard ⟨rfl, rfl, rfl, rfl, rfl⟩
    (Or.inr (Or.inr (Or.inr rfl))) (by decide)
  ⟨h.1, h.2.1, h.2.2.2.1⟩

theorem flightCheck_work (script : List Step) :
    flightCheck false (work script).1 = true := by
  induction script with
  | nil => rfl
  | cons s rest ih =>
    cases s with
    | cancelled => rfl
    | ready f =>
      cases f with
      | fetchFailure e => rfl
      | empty => rfl
      | msg env pr del =>
        cases h : (process env pr del).2 with
        | some e => simp [work, h, flightCheck]
        | none =>
          cases hw : work rest with
          | mk tr res =>
            have ih' : flightCheck false tr = true := by rw [hw] at ih; exact ih
            simp [work, h, hw, flightCheck, ih']

/-- C5: the triage loop starts running; cancellation observed at the top of
an iteration stops it with a nil result before fetching; otherwise it
fetches one message without auto-ack — an empty fetch prints the notice and
stops successfully, a fetch failure stops with that error, a processing
failure stops with that error, and success continues the loop — and every
trace the loop can produce never has a second fetch while a message is
still in flight. -/
theorem triage_loop_spec :
    (∀ rest, work (.cancelled :: rest) = ([], some none)) ∧
    (∀ e rest, work (.ready (.fetchFailure e) :: rest) = ([.fetch], some (some e))) ∧
    (∀ rest, work (.ready .empty :: rest) = ([.fetch, .notice], some none)) ∧
    (∀ env pr del rest e, (process env pr del).2 = some e →
      work (.ready (.msg env pr del) :: rest) =
        ([.fetch, .processed del], some (some e))) ∧
    (∀ env pr del rest, (process env pr del).2 = none →
      work (.ready (.msg env pr del) :: rest) =
        (.fetch :: .processed del :: (work rest).1, (work rest).2)) ∧
    (∀ script, atMostOneInFlight (work script).1 = true) := by
  refine ⟨fun _ => rfl, fun _ _ => rfl, fun _ => rfl, ?_, ?_,
    fun script => flightCheck_work script⟩
  · intro env pr del rest e h
    simp [work, h]
  · intro env pr del rest h
    cases hw : work rest with
    | mk tr res => simp [work, h, hw]

/-- Witness for C5 at concrete inputs: immediate cancellation, and a
message whose acknowledgement fails, stopping the loop with that error. -/
theorem triage_loop_spec_witness :
    work [Step.cancelled] = ([], some none) ∧
    work [Step.ready (FetchOutcome.msg envAckFail (Except.ok 2) delA)] =
      ([.fetch, .processed delA], some (some "ack failed")) :=
  ⟨triage_loop_spec.1 [],
   triage_loop_spec.2.2.2.1 envAckFail (Except.ok 2) delA [] "ack failed" (by decide)⟩

/-- C8: `run` fails with the usage error and no broker effect iff the
argument vector does not consist of the program name plus exactly two
non-empty positional inputs; `main` prints every fatal error and exits
with status 1, and exits with status 0 on a nil result (clean drain or
cancellation). -/
theorem entry_spec :
    (∀ env args,
      ((run env args).1 = [] ∧ (run env args).2 = some (some errUsage)) ↔
        ¬(args.length = 3 ∧ args.getD 1 "" ≠ "" ∧ args.getD 2 "" ≠ "")) ∧
    (∀ env args e, (run env args).2 = some (some e) →
      mainResult env args = some (1, some e)) ∧
    (∀ env args, (run env args).2 = some none →
      mainResult env args = some (0, none)) := by
  refine ⟨?_, ?_, ?_⟩
  · intro env args
    constructor
    · rintro ⟨heff, -⟩ ⟨hlen, hurl, hqueue⟩
      simp only [run] at heff
      rw [if_neg (by simp [hlen]), if_neg hurl, if_neg hqueue] at heff
      cases hd : env.dialErr with
      | some e1 => rw [hd] at heff; simp at heff
      | none =>
        cases hch : env.channelErr with
        | some e2 => rw [hd, hch] at heff; simp at heff
        | none => rw [hd, hch] at heff; simp at heff
    · intro hinv
      simp only [run]
      by_cases hlen : args.length = 3
      · rw [if_neg (by simp [hlen])]
        by_cases hurl : args.getD 1 "" = ""
        · rw [if_pos hurl]
          exact ⟨rfl, rfl⟩
        · by_cases hqueue : args.getD 2 "" = ""
          · rw [if_neg hurl, if_pos hqueue]
            exact ⟨rfl, rfl⟩
          · exact absurd ⟨hlen, hurl, hqueue⟩ hinv
      · rw [if_pos hlen]
        exact ⟨rfl, rfl⟩
  · intro env args e h
    simp [mainResult, h]
  · intro env args h
    simp [mainResult, h]

/-- Environment for the entry-point witness: healthy connection, a script
whose first fetch finds the queue empty. -/
def renvDrain : RunEnv :=
  { dialErr := none, channelErr := none, script := [Step.ready .empty] }

/-- Witness for C8 at concrete inputs: a missing queue argument fails with
the usage error before any broker effect and exits 1; a clean drain with
valid arguments exits 0. -/
theorem entry_spec_witness :
    ((run renvDrain ["amqp-dead-letter", "amqp://h"]).1 = [] ∧
      (run renvDrain ["amqp-dead-letter", "amqp://h"]).2 = some (some errUsage)) ∧
    mainResult renvDrain ["amqp-dead-letter", "amqp://h"] = some (1, some errUsage) ∧
    mainResult renvDrain ["amqp-dead-letter", "amqp://h", "dlq"] = some (0, none) :=
  ⟨(entry_spec.1 renvDrain ["amqp-dead-letter", "amqp://h"]).mpr (by decide),
   entry_spec.2.1 renvDrain ["amqp-dead-letter", "amqp://h"] errUsage (by decide),
   entry_spec.2.2 renvDrain ["amqp-dead-letter", "amqp://h", "dlq"] (by decide)⟩

theorem getHeader_nonstring {t : Table} {k : String} {v : FieldValue}
    (hnd : (t.map Prod.fst).Nodup) (hmem : (k, v) ∈ t)
    (hns : ∀ s, v ≠ FieldValue.str s) : getHeader t k = "" := by
  induction t with
  | nil => cases hmem
  | cons kv rest ih =>
    obtain ⟨k', v'⟩ := kv
    simp only [List.map_cons, List.nodup_cons] at hnd
    obtain ⟨hk', hnd'⟩ := hnd
    rcases List.mem_cons.mp hmem with heq | hmem'
    · injection heq with hk hv
      subst hk
      subst hv
      cases v with
      | str s => exact absurd rfl (hns s)
      | int n => simp [getHeader]
      | boolean b => simp [getHeader]
      | bytes s => simp [getHeader]
      | nested kvs => simp [getHeader]
    · by_cases hkk : k' = k
      · subst hkk
        exact absurd (List.mem_map_of_mem Prod.fst hmem') hk'
      · simp only [getHeader]
        rw [if_neg hkk]
        exact ih hnd' hmem'

/-- C9: a `x-first-death-queue` or `x-first-death-exchange` header holding a
non-string value makes `getHeader` return the empty string, so the
corresponding republish disposition is not offered — exactly as if the
header were absent. -/
theorem nonstring_header_spec (del : Delivery) (v : FieldValue)
    (hnd : (del.headers.map Prod.fst).Nodup)
    (hns : ∀ s, v ≠ FieldValue.str s) :
    (("x-first-death-queue", v) ∈ del.headers →
      getHeader del.headers "x-first-death-queue" = "" ∧
      actionRepublishQueue ∉ (resolveDispositions del).2) ∧
    (("x-first-death-exchange", v) ∈ del.headers →
      getHeader del.headers "x-first-death-exchange" = "" ∧
      actionRepublishExchange ∉ (resolveDispositions del).2) := by
  constructor
  · intro hmem
    have hq := getHeader_nonstring hnd hmem hns
    refine ⟨hq, ?_⟩
    by_cases he : getHeader del.headers "x-first-death-exchange" = "" <;>
    by_cases hm : del.messageId = "" <;>
      simp [resolveDispositions, hq, he, hm, actionRepublishQueue,
        actionRepublishExchange, actionSaveToFile, actionDiscard]
  · intro hmem
    have he := getHeader_nonstring hnd hmem hns
    refine ⟨he, ?_⟩
    by_cases hq : getHeader del.headers "x-first-death-queue" = "" <;>
    by_cases hm : del.messageId = "" <;>
      simp [resolveDispositions, hq, he, hm, actionRepublishQueue,
        actionRepublishExchange, actionSaveToFile, actionDiscard]

/-- Witness for C9 at a concrete delivery whose first-death-queue header
holds the integer 5. -/
theorem nonstring_header_spec_witness :
    getHeader delN.headers "x-first-death-queue" = "" ∧
    actionRepublishQueue ∉ (resolveDispositions delN).2 :=
  (nonstring_header_spec delN (.int 5) (by decide)
    (fun _ h => FieldValue.noConfusion h)).1 (by decide)

/-- C10: in the `SaveToFile` branch, after a successful file creation a
failing write or close propagates that error with the delivery never
acknowledged, while the created file stays on disk (never removed); on a
write failure the file is not even closed. -/
theorem save_failure_spec (env : Env) (del : Delivery) (e : String)
    (hmid : del.messageId ≠ "") (hc : env.createErr = none) :
    (env.writeErr = some e →
      executeAction env del actionSaveToFile =
        ([.fileCreate (filename del), .fileWriteDelivery (filename del) del], some e) ∧
      (∀ t m, Effect.ack t m ∉ (executeAction env del actionSaveToFile).1) ∧
      Effect.fileClose (filename del) ∉ (executeAction env del actionSaveToFile).1 ∧
      (∀ n, Effect.fileRemove n ∉ (executeAction env del actionSaveToFile).1)) ∧
    (env.writeErr = none → env.closeErr = some e →
      executeAction env del actionSaveToFile =
        ([.fileCreate (filename del), .fileWriteDelivery (filename del) del,
          .fileClose (filename del)], some e) ∧
      (∀ t m, Effect.ack t m ∉ (executeAction env del actionSaveToFile).1) ∧
      (∀ n, Effect.fileRemove n ∉ (executeAction env del actionSaveToFile).1)) := by
  constructor
  · intro hw
    refine ⟨?_, ?_, ?_, ?_⟩ <;>
      simp [executeAction, actionRepublishQueue, actionRepublishExchange,
        actionSaveToFile, hmid, hc, hw]
  · intro hw hcl
    refine ⟨?_, ?_, ?_⟩ <;>
      simp [executeAction, actionRepublishQueue, actionRepublishExchange,
        actionSaveToFile, hmid, hc, hw, hcl]

/-- Witness for C10 at a concrete delivery: a failing write and a failing
close after a successful creation. -/
theorem save_failure_spec_witness :
    executeAction envWriteFail delA actionSaveToFile =
      ([.fileCreate (filename delA), .fileWriteDelivery (filename delA) delA],
        some "disk full") ∧
    executeAction envCloseFail delA actionSaveToFile =
      ([.fileCreate (filename delA), .fileWriteDelivery (filename delA) delA,
        .fileClose (filename delA)], some "close failed") :=
  ⟨((save_failure_spec envWriteFail delA "disk full" (by decide) rfl).1 rfl).1,
   ((save_failure_spec envCloseFail delA "close failed" (by decide) rfl).2 rfl rfl).1⟩

end DeadLetter
